import Mathlib

/-! timecard: the command layer (`main.go`) and the timecard state machine

Part I embeds `main.go`: the four command functions, the dispatch table
`fnMap` and `main`.  The packages `git` and `timecard` that `main.go` calls,
and the Go standard library functions it uses, are parameters of the
embedding (`World`); every call that a command function makes is recorded in
a trace, together with the value it returned.

Part II models the timecard state machine (`Init`, `Start`, `Checkpoint`,
`End`) from the specification, since package `timecard` is not part of the
available source.
-/

namespace Main

/-! ## Part I: `main.go` -/

/-- Go `error` values are represented by the text that `err.Error()` returns;
    `Option Error` is a Go `error` variable, `none` being `nil`. -/
abbrev Error := String

/-- Constant `timecardFile` of `main.go`. -/
def timecardFile : String := ".timecard"

/-- Constant `version` of `main.go`. -/
def version : String := "0.0.1"

/-- Constant `usage` of `main.go`. -/
def usage : String :=
  "usage: timecard [--version] [--help] <command> [<args>]\n\nValid Timecard commands include:\n    init        Create an empty timecard or re-initialize an existing one\n    start       Start or re-start the timecard for the current commit\n    checkpoint  Create a checkpoint within a given interval\n    end         End a timestamp with a given tag (usually a commit hash)\n"

/-- The global `CLI` of `main.go`, as filled in by `init()`: the two boolean
    flags and the working directory. -/
structure CLI where
  version : Bool
  help : Bool
  cwd : String
  deriving DecidableEq, Repr

/-- What `os.Stat(p)` answered, as far as `os.IsNotExist(err)` can tell:
    `found` is a `nil` error, `notExist` an error for which `os.IsNotExist` is
    true, `otherErr` any other error. -/
inductive StatResult where
  | found
  | notExist
  | otherErr
  deriving DecidableEq, Repr

/-- Go `os.IsNotExist` on the error of a `StatResult`. -/
def StatResult.isNotExist : StatResult → Bool
  | .notExist => true
  | _ => false

/-- Everything `main.go` calls but does not define.  `G` stands for `*git.Git`,
    `T` for `*timecard.Timecard`.
    * `toLower` is `strings.ToLower`, `pathJoin` is `path.Join` on two
      elements, `goSyntax` is the `%#v` rendering of a `[]string`;
    * `gitNew` is `git.New`, `osStat` is `os.Stat`;
    * `tcInit`, `tcLoad` are `timecard.Init`, `timecard.Load`;
    * `tcStart`, `tcEnd` are the methods `Start`, `End` of a loaded timecard.
    Each command function calls each of them at most once, so a function of
    the arguments is enough to give the answer at the time of the call. -/
structure World (G T : Type) where
  toLower : String → String
  pathJoin : String → String → String
  goSyntax : List String → String
  gitNew : String → Except Error G
  osStat : String → StatResult
  tcInit : G → String → Except Error T
  tcLoad : G → String → Except Error T
  tcStart : T → Option Error
  tcEnd : T → Option Error

/-- One observable action of a run, in program order.  Calls into `timecard`
    carry their arguments and the error they returned (`none` for `nil`). -/
inductive Event (G T : Type) where
  | gitNew (dir : String)
  | osStat (path : String)
  | tcInit (g : G) (path : String) (err : Option Error)
  | tcLoad (g : G) (path : String) (err : Option Error)
  | tcStart (tc : T) (err : Option Error)
  | tcEnd (tc : T) (err : Option Error)
  | printf (msg : String)
  | fatalf (msg : String)
  deriving DecidableEq, Repr

/-- How a command function finishes: it returns an `error` (possibly `nil`)
    to `main`, or `log.Fatalf` has ended the process (exit status 1). -/
inductive Result where
  | returned (err : Option Error)
  | fatal
  deriving DecidableEq, Repr

/-- A run of a command function: what it did, and how it finished. -/
structure Run (G T : Type) where
  trace : List (Event G T)
  result : Result
  deriving DecidableEq, Repr

/-- A run of `main`: what it did, and the exit status of the process. -/
structure MainRun (G T : Type) where
  trace : List (Event G T)
  exitCode : Nat
  deriving DecidableEq, Repr

/-- The message of the `log.Fatalf` shared by `initFunc`, `startFunc` and
    `endFunc` when `git.New` fails. -/
def noRepoMsg (cwd : String) : String :=
  "Error: Could not find a valid git repository at " ++ cwd ++ ". Did you \"git init\"?\n"

/-- Function `initFunc` of `main.go`. -/
def initFunc {G T : Type} (w : World G T) (cli : CLI) (_args : List String) : Run G T :=
  match w.gitNew cli.cwd with
  | .error _ => ⟨[.gitNew cli.cwd, .fatalf (noRepoMsg cli.cwd)], .fatal⟩
  | .ok g =>
    let tcfp := w.pathJoin cli.cwd timecardFile
    if (w.osStat tcfp).isNotExist then
      match w.tcInit g tcfp with
      | .error e =>
        ⟨[.gitNew cli.cwd, .osStat tcfp, .tcInit g tcfp (some e)], .returned (some e)⟩
      | .ok _ =>
        ⟨[.gitNew cli.cwd, .osStat tcfp, .tcInit g tcfp none,
          .printf ("Initialized new timecard for " ++ "user" ++ " in " ++ tcfp ++ ".")],
         .returned none⟩
    else
      ⟨[.gitNew cli.cwd, .osStat tcfp,
        .printf ("Timecard already setup for " ++ tcfp ++ ", use --force to re-initialize.\n")],
       .returned none⟩

/-- Function `startFunc` of `main.go`. -/
def startFunc {G T : Type} (w : World G T) (cli : CLI) (_args : List String) : Run G T :=
  match w.gitNew cli.cwd with
  | .error _ => ⟨[.gitNew cli.cwd, .fatalf (noRepoMsg cli.cwd)], .fatal⟩
  | .ok g =>
    let tcfp := w.pathJoin cli.cwd timecardFile
    match w.tcLoad g tcfp with
    | .error e => ⟨[.gitNew cli.cwd, .tcLoad g tcfp (some e)], .returned (some e)⟩
    | .ok tc =>
      ⟨[.gitNew cli.cwd, .tcLoad g tcfp none, .tcStart tc (w.tcStart tc)],
       .returned (w.tcStart tc)⟩

/-- Function `checkpointFunc` of `main.go`. -/
def checkpointFunc {G T : Type} (w : World G T) (_cli : CLI) (args : List String) : Run G T :=
  ⟨[.printf ("checkpoint: " ++ w.goSyntax args ++ "\n")], .returned none⟩

/-- Function `endFunc` of `main.go`. -/
def endFunc {G T : Type} (w : World G T) (cli : CLI) (_args : List String) : Run G T :=
  match w.gitNew cli.cwd with
  | .error _ => ⟨[.gitNew cli.cwd, .fatalf (noRepoMsg cli.cwd)], .fatal⟩
  | .ok g =>
    let tcfp := w.pathJoin cli.cwd timecardFile
    match w.tcLoad g tcfp with
    | .error e => ⟨[.gitNew cli.cwd, .tcLoad g tcfp (some e)], .returned (some e)⟩
    | .ok tc =>
      ⟨[.gitNew cli.cwd, .tcLoad g tcfp none, .tcEnd tc (w.tcEnd tc)],
       .returned (w.tcEnd tc)⟩

/-- Type `cmdFn` of `main.go`; the world and the global `CLI` are explicit. -/
abbrev cmdFn (G T : Type) := World G T → CLI → List String → Run G T

/-- The map `fnMap` of `main.go`; `none` is a failed lookup. -/
def fnMap {G T : Type} (cmd : String) : Option (cmdFn G T) :=
  if cmd = "init" then some initFunc
  else if cmd = "start" then some startFunc
  else if cmd = "checkpoint" then some checkpointFunc
  else if cmd = "end" then some endFunc
  else none

/-- The part of `main` after a successful lookup: the command function has
    run; a non-nil error is turned into `log.Fatalf`. -/
def finish {G T : Type} (cmd : String) (r : Run G T) : MainRun G T :=
  match r.result with
  | .fatal => ⟨r.trace, 1⟩
  | .returned none => ⟨r.trace, 0⟩
  | .returned (some e) =>
    ⟨r.trace ++ [.fatalf (cmd ++ " command failed: " ++ e ++ "\n")], 1⟩

/-- Function `main` of `main.go`; `args` is `flag.Args()`. -/
def main {G T : Type} (w : World G T) (cli : CLI) (args : List String) : MainRun G T :=
  if cli.version then ⟨[.printf (version ++ "\n")], 0⟩
  else if cli.help || args.length == 0 then ⟨[.printf (usage ++ "\n")], 0⟩
  else
    match args with
    | [] => ⟨[.printf (usage ++ "\n")], 0⟩
    | a :: rest =>
      let cmd := w.toLower a
      match fnMap cmd with
      | some fn => finish cmd (fn w cli rest)
      | none => ⟨[.fatalf ("Unknown command! " ++ usage ++ "\n")], 1⟩

/-! ### Predicates on traces -/

/-- The event is a call into package `timecard` (`Init`, `Load`, `Start` or
    `End`). -/
def Event.isEngineCall {G T : Type} : Event G T → Bool
  | .tcInit _ _ _ => true
  | .tcLoad _ _ _ => true
  | .tcStart _ _ => true
  | .tcEnd _ _ => true
  | _ => false

/-- The event looks at or touches the record file: `os.Stat` or a call into
    package `timecard`. -/
def Event.examinesRecord {G T : Type} : Event G T → Bool
  | .osStat _ => true
  | e => e.isEngineCall

/-- The event is a `log.Fatalf`. -/
def Event.isFatal {G T : Type} : Event G T → Bool
  | .fatalf _ => true
  | _ => false

/-- The path of the record file that the event names, if it names one. -/
def Event.recordPath {G T : Type} : Event G T → Option String
  | .osStat p => some p
  | .tcInit _ p _ => some p
  | .tcLoad _ p _ => some p
  | _ => none

/-- The error that a call into package `timecard` returned, if the event is
    such a call and the error is not `nil`. -/
def Event.engineError {G T : Type} : Event G T → Option Error
  | .tcInit _ _ err => err
  | .tcLoad _ _ err => err
  | .tcStart _ err => err
  | .tcEnd _ err => err
  | _ => none

/-- An error that a call into package `timecard` returned is the error that
    the command function returns. -/
def ReturnsEngineError {G T : Type} (r : Run G T) : Prop :=
  ∀ ev ∈ r.trace, ∀ e, ev.engineError = some e → r.result = .returned (some e)

/-- A command function that returns has not logged a fatal message. -/
def ReturnsWithoutFatal {G T : Type} (r : Run G T) : Prop :=
  (∃ err, r.result = .returned err) → ∀ ev ∈ r.trace, ev.isFatal = false

/-- The reading of "a force flag was given" that the statements use: the
    arguments of the command hold `--force` or `-force`, the two spellings
    that Go's `flag` package accepts.  `main.go` itself has no such test. -/
def forceRequested (args : List String) : Bool :=
  args.any (fun a => a == "--force" || a == "-force")

/-- The error of an `Except` value, `none` when there is none: the `error`
    half of a Go `(value, error)` pair. -/
def errorOf {α : Type} : Except Error α → Option Error
  | .error e => some e
  | .ok _ => none

/-! ### Concrete worlds, for evaluation -/

/-- ASCII lower-casing, which is what `strings.ToLower` does on ASCII text. -/
def asciiLower (s : String) : String :=
  String.mk (s.data.map Char.toLower)

/-- A world given by the answers of its six oracles.  Lower-casing is ASCII
    lower-casing, joining puts a slash in between, and the `%#v` rendering
    quotes each element as it is (right for elements without quotes,
    backslashes and unprintable characters). -/
def mkWorld (git : Except Error Unit) (stat : StatResult) (ini load : Except Error Unit)
    (start stop : Option Error) : World Unit Unit where
  toLower := asciiLower
  pathJoin := fun a b => a ++ "/" ++ b
  goSyntax := fun xs => "[]string\x7b" ++ ", ".intercalate (xs.map (fun x => "\"" ++ x ++ "\"")) ++ "\x7d"
  gitNew := fun _ => git
  osStat := fun _ => stat
  tcInit := fun _ _ => ini
  tcLoad := fun _ _ => load
  tcStart := fun _ => start
  tcEnd := fun _ => stop

/-- A valid repository in which the record file exists and loads, and in
    which every operation of package `timecard` succeeds. -/
def demoWorld : World Unit Unit :=
  mkWorld (.ok ()) .found (.ok ()) (.ok ()) none none

/-- A valid repository without a record file, in which `timecard.Init` fails
    with an error that reads `disk full`. -/
def freshWorld : World Unit Unit :=
  mkWorld (.ok ()) .notExist (.error "disk full") (.error "open .timecard: no such file") none none

/-- A valid repository whose record file loads, and in which `Start` and
    `End` fail. -/
def busyWorld : World Unit Unit :=
  mkWorld (.ok ()) .found (.ok ()) (.ok ()) (some "session already open") (some "no open session")

/-- A directory that is not a git repository. -/
def noRepoWorld : World Unit Unit :=
  mkWorld (.error "not a git repository") .found (.ok ()) (.ok ()) none none

/-- The global `CLI` of a run without flags in directory `/repo`. -/
def demoCLI : CLI := ⟨false, false, "/repo"⟩

end Main

/-! ## Part II: the timecard state machine -/

namespace Engine

/-- Modelled from the spec: the failure kinds of its error taxonomy; package
    `timecard`, which would define them, is missing from the source. -/
inductive Failure where
  | NotARepository
  | NotFound
  | AlreadyExists
  | CorruptRecord
  | SessionAlreadyOpen
  | NoOpenSession
  | ClockRegression
  | RecordLocked
  | NoCommits
  deriving DecidableEq, Repr

/-- Modelled from the spec: a `Checkpoint`, a labelled point inside an open
    session (type missing from the source).  Timestamps are readings of a
    linearly ordered clock, taken as natural numbers. -/
structure Checkpoint where
  label : String
  time : Nat
  deriving DecidableEq, Repr

/-- Modelled from the spec: a `Session`, one tracked interval (type missing
    from the source).  `endCommit` and `endTime` are unset while the session
    is open. -/
structure Session where
  startCommit : String
  startTime : Nat
  checkpoints : List Checkpoint
  endCommit : Option String
  endTime : Option Nat
  deriving DecidableEq, Repr

/-- Modelled from the spec: a `Timecard`, the root persisted entity (type
    missing from the source): the path of its file and its sessions in
    chronological order. -/
structure Timecard where
  path : String
  sessions : List Session
  deriving DecidableEq, Repr

/-- Modelled from the spec: a session is open when its end time is missing. -/
def Session.isOpen (s : Session) : Bool :=
  s.endTime.isNone

/-- Modelled from the spec: the last recorded timestamp of a session, which
    is its start time or the time of its last checkpoint. -/
def Session.lastTime (s : Session) : Nat :=
  match s.checkpoints.getLast? with
  | some c => c.time
  | none => s.startTime

/-- Modelled from the spec: the number of open sessions of a timecard. -/
def openCount (tc : Timecard) : Nat :=
  tc.sessions.countP Session.isOpen

/-- Modelled from the spec: the invariant of `Timecard`, at most one session
    is open. -/
def AtMostOneOpen (tc : Timecard) : Prop :=
  openCount tc ≤ 1

instance (tc : Timecard) : Decidable (AtMostOneOpen tc) :=
  inferInstanceAs (Decidable (openCount tc ≤ 1))

/-- Modelled from the spec: the currently open session, if there is one (the
    first one in the sequence that is open). -/
def currentOpen (ss : List Session) : Option Session :=
  ss.find? Session.isOpen

/-- Modelled from the spec: change the currently open session by `f`, and
    leave every other session as it is. -/
def modifyOpen (f : Session → Session) : List Session → List Session
  | [] => []
  | s :: rest => if s.isOpen then f s :: rest else s :: modifyOpen f rest

/-- Modelled from the spec: `Init` of the store (function missing from the
    source).  It fails with `AlreadyExists` if a record exists at the path and
    no force-overwrite was requested, and otherwise gives a new empty
    `Timecard`. -/
def Init (recordExists force : Bool) (path : String) : Except Failure Timecard :=
  if recordExists && !force then .error .AlreadyExists
  else .ok ⟨path, []⟩

/-- Modelled from the spec: transition `Start` (method missing from the
    source).  `commit` is the answer of the repository probe for the current
    commit, `now` the current time.  Valid only when no session is open; it
    appends a new session with these start values, no checkpoints and unset
    end fields. -/
def Timecard.Start (tc : Timecard) (commit : Except Failure String) (now : Nat) :
    Except Failure Timecard :=
  match currentOpen tc.sessions with
  | some _ => .error .SessionAlreadyOpen
  | none =>
    match commit with
    | .error e => .error e
    | .ok c => .ok { tc with sessions := tc.sessions ++ [⟨c, now, [], none, none⟩] }

/-- Modelled from the spec: transition `Checkpoint(label)` (method missing
    from the source).  Valid only when a session is open; `now` must not be
    earlier than the last recorded timestamp of that session; it appends the
    checkpoint to the open session. -/
def Timecard.Checkpoint (tc : Timecard) (label : String) (now : Nat) :
    Except Failure Timecard :=
  match currentOpen tc.sessions with
  | none => .error .NoOpenSession
  | some s =>
    if now < s.lastTime then .error .ClockRegression
    else
      let add : Session → Session :=
        fun o => { o with checkpoints := o.checkpoints ++ [⟨label, now⟩] }
      .ok { tc with sessions := modifyOpen add tc.sessions }

/-- Modelled from the spec: transition `End` (method missing from the
    source).  Valid only when a session is open; it sets the end commit and
    the end time of the open session, under the same clock rule as
    `Checkpoint`. -/
def Timecard.End (tc : Timecard) (commit : Except Failure String) (now : Nat) :
    Except Failure Timecard :=
  match currentOpen tc.sessions with
  | none => .error .NoOpenSession
  | some s =>
    match commit with
    | .error e => .error e
    | .ok c =>
      if now < s.lastTime then .error .ClockRegression
      else
        let close : Session → Session :=
          fun o => { o with endCommit := some c, endTime := some now }
        .ok { tc with sessions := modifyOpen close tc.sessions }

/-- A call of the engine, with what the repository probe and the clock answer
    during the call. -/
inductive Call where
  | start (commit : Except Failure String) (now : Nat)
  | checkpoint (label : String) (now : Nat)
  | stop (commit : Except Failure String) (now : Nat)

/-- The engine's answer to one call. -/
def apply (tc : Timecard) : Call → Except Failure Timecard
  | .start commit now => tc.Start commit now
  | .checkpoint label now => tc.Checkpoint label now
  | .stop commit now => tc.End commit now

/-- A sequence of calls, each of which the engine accepts; the first failure
    ends the sequence. -/
def applyAll (tc : Timecard) : List Call → Except Failure Timecard
  | [] => .ok tc
  | c :: cs =>
    match apply tc c with
    | .ok tc' => applyAll tc' cs
    | .error e => .error e

/-- The scenario of the spec: `Start`, `Checkpoint("lunch")`, `End`, at commit
    `abc` and then `def`, with the clock at 10, 20 and 30. -/
def lunchDay : List Call :=
  [.start (.ok "abc") 10, .checkpoint "lunch" 20, .stop (.ok "def") 30]

end Engine

/-! ## Theorems about `main.go` -/

namespace Main

variable {G T : Type}

/-! ### The dispatch table and `main`, case by case -/

theorem fnMap_init : (fnMap "init" : Option (cmdFn G T)) = some initFunc := by
  simp [fnMap]

theorem fnMap_start : (fnMap "start" : Option (cmdFn G T)) = some startFunc := by
  simp [fnMap]

theorem fnMap_checkpoint : (fnMap "checkpoint" : Option (cmdFn G T)) = some checkpointFunc := by
  simp [fnMap]

theorem fnMap_end : (fnMap "end" : Option (cmdFn G T)) = some endFunc := by
  simp [fnMap]

theorem fnMap_unknown (cmd : String) (h : cmd ∉ ["init", "start", "checkpoint", "end"]) :
    (fnMap cmd : Option (cmdFn G T)) = none := by
  simp only [List.mem_cons, List.mem_singleton, List.not_mem_nil, or_false, not_or] at h
  obtain ⟨h1, h2, h3, h4⟩ := h
  simp [fnMap, h1, h2, h3, h4]

/-- Without the version and help flags and with a first argument, `main` is
    the lookup of the lower-cased first argument. -/
theorem main_command (w : World G T) (cli : CLI) (a : String) (rest : List String)
    (hv : cli.version = false) (hh : cli.help = false) :
    main w cli (a :: rest) =
      match fnMap (w.toLower a) with
      | some fn => finish (w.toLower a) (fn w cli rest)
      | none => ⟨[.fatalf ("Unknown command! " ++ usage ++ "\n")], 1⟩ := by
  simp [main, hv, hh]

/-! ### What the command functions do, case by case -/

theorem initFunc_no_repo (w : World G T) (cli : CLI) (args : List String) (e : Error)
    (h : w.gitNew cli.cwd = .error e) :
    initFunc w cli args = ⟨[.gitNew cli.cwd, .fatalf (noRepoMsg cli.cwd)], .fatal⟩ := by
  simp [initFunc, h]

theorem startFunc_no_repo (w : World G T) (cli : CLI) (args : List String) (e : Error)
    (h : w.gitNew cli.cwd = .error e) :
    startFunc w cli args = ⟨[.gitNew cli.cwd, .fatalf (noRepoMsg cli.cwd)], .fatal⟩ := by
  simp [startFunc, h]

theorem endFunc_no_repo (w : World G T) (cli : CLI) (args : List String) (e : Error)
    (h : w.gitNew cli.cwd = .error e) :
    endFunc w cli args = ⟨[.gitNew cli.cwd, .fatalf (noRepoMsg cli.cwd)], .fatal⟩ := by
  simp [endFunc, h]

theorem initFunc_present (w : World G T) (cli : CLI) (args : List String) (g : G)
    (hg : w.gitNew cli.cwd = .ok g)
    (hs : (w.osStat (w.pathJoin cli.cwd timecardFile)).isNotExist = false) :
    initFunc w cli args =
      ⟨[.gitNew cli.cwd, .osStat (w.pathJoin cli.cwd timecardFile),
        .printf ("Timecard already setup for " ++ w.pathJoin cli.cwd timecardFile ++
          ", use --force to re-initialize.\n")],
       .returned none⟩ := by
  simp [initFunc, hg, hs]

theorem initFunc_absent (w : World G T) (cli : CLI) (args : List String) (g : G)
    (hg : w.gitNew cli.cwd = .ok g)
    (hs : (w.osStat (w.pathJoin cli.cwd timecardFile)).isNotExist = true) :
    initFunc w cli args =
      match w.tcInit g (w.pathJoin cli.cwd timecardFile) with
      | .error e =>
        ⟨[.gitNew cli.cwd, .osStat (w.pathJoin cli.cwd timecardFile),
          .tcInit g (w.pathJoin cli.cwd timecardFile) (some e)], .returned (some e)⟩
      | .ok _ =>
        ⟨[.gitNew cli.cwd, .osStat (w.pathJoin cli.cwd timecardFile),
          .tcInit g (w.pathJoin cli.cwd timecardFile) none,
          .printf ("Initialized new timecard for " ++ "user" ++ " in " ++
            w.pathJoin cli.cwd timecardFile ++ ".")],
         .returned none⟩ := by
  simp [initFunc, hg, hs]

theorem startFunc_repo (w : World G T) (cli : CLI) (args : List String) (g : G)
    (hg : w.gitNew cli.cwd = .ok g) :
    startFunc w cli args =
      match w.tcLoad g (w.pathJoin cli.cwd timecardFile) with
      | .error e =>
        ⟨[.gitNew cli.cwd, .tcLoad g (w.pathJoin cli.cwd timecardFile) (some e)],
         .returned (some e)⟩
      | .ok tc =>
        ⟨[.gitNew cli.cwd, .tcLoad g (w.pathJoin cli.cwd timecardFile) none,
          .tcStart tc (w.tcStart tc)], .returned (w.tcStart tc)⟩ := by
  simp [startFunc, hg]

theorem endFunc_repo (w : World G T) (cli : CLI) (args : List String) (g : G)
    (hg : w.gitNew cli.cwd = .ok g) :
    endFunc w cli args =
      match w.tcLoad g (w.pathJoin cli.cwd timecardFile) with
      | .error e =>
        ⟨[.gitNew cli.cwd, .tcLoad g (w.pathJoin cli.cwd timecardFile) (some e)],
         .returned (some e)⟩
      | .ok tc =>
        ⟨[.gitNew cli.cwd, .tcLoad g (w.pathJoin cli.cwd timecardFile) none,
          .tcEnd tc (w.tcEnd tc)], .returned (w.tcEnd tc)⟩ := by
  simp [endFunc, hg]

end Main

namespace Main

variable {G T : Type}

/-! ### Two facts that hold of every run of a command function -/

theorem initFunc_returnsEngineError (w : World G T) (cli : CLI) (args : List String) :
    ReturnsEngineError (initFunc w cli args) := by
  intro ev hev e he
  unfold initFunc at hev ⊢
  cases hg : w.gitNew cli.cwd with
  | error x =>
    simp only [hg, List.mem_cons, List.mem_singleton, List.not_mem_nil, or_false] at hev
    rcases hev with rfl | rfl <;> simp [Event.engineError] at he
  | ok g =>
    cases hs : (w.osStat (w.pathJoin cli.cwd timecardFile)).isNotExist with
    | false =>
      simp only [hg, hs, Bool.false_eq_true, if_false, List.mem_cons, List.mem_singleton,
        List.not_mem_nil, or_false] at hev
      rcases hev with rfl | rfl | rfl <;> simp [Event.engineError] at he
    | true =>
      cases hi : w.tcInit g (w.pathJoin cli.cwd timecardFile) with
      | error x =>
        simp only [hg, hs, hi, if_true, List.mem_cons, List.mem_singleton,
          List.not_mem_nil, or_false] at hev ⊢
        rcases hev with rfl | rfl | rfl <;> simp [Event.engineError] at he
        simp [he]
      | ok tc =>
        simp only [hg, hs, hi, if_true, List.mem_cons, List.mem_singleton,
          List.not_mem_nil, or_false] at hev
        rcases hev with rfl | rfl | rfl | rfl <;> simp [Event.engineError] at he

theorem startFunc_returnsEngineError (w : World G T) (cli : CLI) (args : List String) :
    ReturnsEngineError (startFunc w cli args) := by
  intro ev hev e he
  unfold startFunc at hev ⊢
  cases hg : w.gitNew cli.cwd with
  | error x =>
    simp only [hg, List.mem_cons, List.mem_singleton, List.not_mem_nil, or_false] at hev
    rcases hev with rfl | rfl <;> simp [Event.engineError] at he
  | ok g =>
    cases hl : w.tcLoad g (w.pathJoin cli.cwd timecardFile) with
    | error x =>
      simp only [hg, hl, List.mem_cons, List.mem_singleton, List.not_mem_nil, or_false] at hev ⊢
      rcases hev with rfl | rfl <;> simp [Event.engineError] at he
      simp [he]
    | ok tc =>
      simp only [hg, hl, List.mem_cons, List.mem_singleton, List.not_mem_nil, or_false] at hev ⊢
      rcases hev with rfl | rfl | rfl <;> simp [Event.engineError] at he
      simp [he]

theorem endFunc_returnsEngineError (w : World G T) (cli : CLI) (args : List String) :
    ReturnsEngineError (endFunc w cli args) := by
  intro ev hev e he
  unfold endFunc at hev ⊢
  cases hg : w.gitNew cli.cwd with
  | error x =>
    simp only [hg, List.mem_cons, List.mem_singleton, List.not_mem_nil, or_false] at hev
    rcases hev with rfl | rfl <;> simp [Event.engineError] at he
  | ok g =>
    cases hl : w.tcLoad g (w.pathJoin cli.cwd timecardFile) with
    | error x =>
      simp only [hg, hl, List.mem_cons, List.mem_singleton, List.not_mem_nil, or_false] at hev ⊢
      rcases hev with rfl | rfl <;> simp [Event.engineError] at he
      simp [he]
    | ok tc =>
      simp only [hg, hl, List.mem_cons, List.mem_singleton, List.not_mem_nil, or_false] at hev ⊢
      rcases hev with rfl | rfl | rfl <;> simp [Event.engineError] at he
      simp [he]

theorem checkpointFunc_returnsEngineError (w : World G T) (cli : CLI) (args : List String) :
    ReturnsEngineError (checkpointFunc w cli args) := by
  intro ev hev e he
  simp only [checkpointFunc, List.mem_singleton] at hev
  subst hev
  simp [Event.engineError] at he

theorem initFunc_returnsWithoutFatal (w : World G T) (cli : CLI) (args : List String) :
    ReturnsWithoutFatal (initFunc w cli args) := by
  rintro ⟨err, hr⟩ ev hev
  unfold initFunc at hev hr
  cases hg : w.gitNew cli.cwd with
  | error x => simp [hg] at hr
  | ok g =>
    cases hs : (w.osStat (w.pathJoin cli.cwd timecardFile)).isNotExist with
    | false =>
      simp only [hg, hs, Bool.false_eq_true, if_false, List.mem_cons, List.mem_singleton,
        List.not_mem_nil, or_false] at hev
      rcases hev with rfl | rfl | rfl <;> rfl
    | true =>
      cases hi : w.tcInit g (w.pathJoin cli.cwd timecardFile) with
      | error x =>
        simp only [hg, hs, hi, if_true, List.mem_cons, List.mem_singleton,
          List.not_mem_nil, or_false] at hev
        rcases hev with rfl | rfl | rfl <;> rfl
      | ok tc =>
        simp only [hg, hs, hi, if_true, List.mem_cons, List.mem_singleton,
          List.not_mem_nil, or_false] at hev
        rcases hev with rfl | rfl | rfl | rfl <;> rfl

theorem startFunc_returnsWithoutFatal (w : World G T) (cli : CLI) (args : List String) :
    ReturnsWithoutFatal (startFunc w cli args) := by
  rintro ⟨err, hr⟩ ev hev
  unfold startFunc at hev hr
  cases hg : w.gitNew cli.cwd with
  | error x => simp [hg] at hr
  | ok g =>
    cases hl : w.tcLoad g (w.pathJoin cli.cwd timecardFile) with
    | error x =>
      simp only [hg, hl, List.mem_cons, List.mem_singleton, List.not_mem_nil, or_false] at hev
      rcases hev with rfl | rfl <;> rfl
    | ok tc =>
      simp only [hg, hl, List.mem_cons, List.mem_singleton, List.not_mem_nil, or_false] at hev
      rcases hev with rfl | rfl | rfl <;> rfl

theorem endFunc_returnsWithoutFatal (w : World G T) (cli : CLI) (args : List String) :
    ReturnsWithoutFatal (endFunc w cli args) := by
  rintro ⟨err, hr⟩ ev hev
  unfold endFunc at hev hr
  cases hg : w.gitNew cli.cwd with
  | error x => simp [hg] at hr
  | ok g =>
    cases hl : w.tcLoad g (w.pathJoin cli.cwd timecardFile) with
    | error x =>
      simp only [hg, hl, List.mem_cons, List.mem_singleton, List.not_mem_nil, or_false] at hev
      rcases hev with rfl | rfl <;> rfl
    | ok tc =>
      simp only [hg, hl, List.mem_cons, List.mem_singleton, List.not_mem_nil, or_false] at hev
      rcases hev with rfl | rfl | rfl <;> rfl

theorem checkpointFunc_returnsWithoutFatal (w : World G T) (cli : CLI) (args : List String) :
    ReturnsWithoutFatal (checkpointFunc w cli args) := by
  rintro - ev hev
  simp only [checkpointFunc, List.mem_singleton] at hev
  subst hev
  rfl

/-- Every function of the dispatch table has both properties. -/
theorem fnMap_run_facts (w : World G T) (cli : CLI) (cmd : String) (rest : List String)
    (fn : cmdFn G T) (h : fnMap cmd = some fn) :
    ReturnsEngineError (fn w cli rest) ∧ ReturnsWithoutFatal (fn w cli rest) := by
  unfold fnMap at h
  split_ifs at h <;> simp only [Option.some.injEq] at h <;> subst h
  · exact ⟨initFunc_returnsEngineError w cli rest, initFunc_returnsWithoutFatal w cli rest⟩
  · exact ⟨startFunc_returnsEngineError w cli rest, startFunc_returnsWithoutFatal w cli rest⟩
  · exact ⟨checkpointFunc_returnsEngineError w cli rest,
      checkpointFunc_returnsWithoutFatal w cli rest⟩
  · exact ⟨endFunc_returnsEngineError w cli rest, endFunc_returnsWithoutFatal w cli rest⟩

/-- After a command function that returned the error `e`, `main` ends with
    the fatal message that names the command and `e`. -/
theorem finish_error (cmd : String) (r : Run G T) (e : Error)
    (h : r.result = .returned (some e)) :
    finish cmd r = ⟨r.trace ++ [.fatalf (cmd ++ " command failed: " ++ e ++ "\n")], 1⟩ := by
  simp [finish, h]

/-- After a command function that returned `nil`, `main` returns. -/
theorem finish_nil (cmd : String) (r : Run G T) (h : r.result = .returned none) :
    finish cmd r = ⟨r.trace, 0⟩ := by
  simp [finish, h]

/-- The events of `main` after a lookup are those of the command function,
    and possibly one fatal message. -/
theorem mem_finish_trace (cmd : String) (r : Run G T) (ev : Event G T)
    (h : ev ∈ (finish cmd r).trace) : ev ∈ r.trace ∨ ev.isFatal = true := by
  unfold finish at h
  split at h
  · exact Or.inl h
  · exact Or.inl h
  · simp only [List.mem_append, List.mem_singleton] at h
    rcases h with h | rfl
    · exact Or.inl h
    · exact Or.inr rfl

end Main

/-! ## The claims about `main.go` -/

namespace Main

variable {G T : Type}

/-- C1 (counterexample): in a valid repository where the record file exists,
    `init` without a force flag does not report failure: `initFunc` returns
    `nil`, and `main` logs that the timecard is already set up and exits with
    status 0. -/
theorem init_existing_reports_success :
    forceRequested [] = false ∧
    demoWorld.osStat (demoWorld.pathJoin demoCLI.cwd timecardFile) = .found ∧
    (initFunc demoWorld demoCLI []).result = .returned none ∧
    main demoWorld demoCLI ["init"] =
      ⟨[.gitNew "/repo", .osStat "/repo/.timecard",
        .printf "Timecard already setup for /repo/.timecard, use --force to re-initialize.\n"],
       0⟩ := by
  decide

/-- C1 (amended): for every invocation of the init command in a valid
    repository in which the record file exists and no force flag was given,
    `initFunc` probes the repository, stats the file, logs that the timecard
    is already set up, and returns `nil`; `main` then exits with status 0 and
    logs nothing more.  The hypothesis on the force flag keeps the statement
    to the invocations the claim is about; the proof does not need it. -/
theorem init_existing_returns_nil (w : World G T) (cli : CLI) (a : String)
    (args : List String) (g : G)
    (hv : cli.version = false) (hh : cli.help = false) (ha : w.toLower a = "init")
    (hg : w.gitNew cli.cwd = .ok g)
    (hs : w.osStat (w.pathJoin cli.cwd timecardFile) = .found)
    (_hf : forceRequested args = false) :
    initFunc w cli args =
      ⟨[.gitNew cli.cwd, .osStat (w.pathJoin cli.cwd timecardFile),
        .printf ("Timecard already setup for " ++ w.pathJoin cli.cwd timecardFile ++
          ", use --force to re-initialize.\n")],
       .returned none⟩ ∧
    main w cli (a :: args) =
      ⟨[.gitNew cli.cwd, .osStat (w.pathJoin cli.cwd timecardFile),
        .printf ("Timecard already setup for " ++ w.pathJoin cli.cwd timecardFile ++
          ", use --force to re-initialize.\n")],
       0⟩ := by
  have hp : initFunc w cli args = _ := initFunc_present w cli args g hg (by rw [hs]; rfl)
  refine ⟨hp, ?_⟩
  rw [main_command w cli a args hv hh, ha, fnMap_init]
  simp only []
  rw [finish_nil "init" _ (by rw [hp]), hp]

/-- C1 (witness): the amended claim at `init` in `/repo`, where the record
    file exists. -/
theorem init_existing_returns_nil_witness :
    initFunc demoWorld demoCLI [] =
      ⟨[.gitNew "/repo", .osStat "/repo/.timecard",
        .printf "Timecard already setup for /repo/.timecard, use --force to re-initialize.\n"],
       .returned none⟩ ∧
    main demoWorld demoCLI ["Init"] =
      ⟨[.gitNew "/repo", .osStat "/repo/.timecard",
        .printf "Timecard already setup for /repo/.timecard, use --force to re-initialize.\n"],
       0⟩ :=
  init_existing_returns_nil demoWorld demoCLI "Init" [] () (by decide) (by decide) (by decide)
    rfl (by decide) (by decide)

/-- C2: for every invocation of the init command in which the record file
    exists, `initFunc` makes no call into package `timecard`: neither `Init`
    nor `Load`, `Start` or `End` occurs in its trace, whatever the arguments
    and whether or not the directory is a repository. -/
theorem init_existing_untouched (w : World G T) (cli : CLI) (args : List String)
    (hs : w.osStat (w.pathJoin cli.cwd timecardFile) = .found) :
    ∀ ev ∈ (initFunc w cli args).trace, ev.isEngineCall = false := by
  intro ev hev
  cases hg : w.gitNew cli.cwd with
  | error e =>
    rw [initFunc_no_repo w cli args e hg] at hev
    simp only [List.mem_cons, List.mem_singleton, List.not_mem_nil, or_false] at hev
    rcases hev with rfl | rfl <;> rfl
  | ok g =>
    rw [initFunc_present w cli args g hg (by rw [hs]; rfl)] at hev
    simp only [List.mem_cons, List.mem_singleton, List.not_mem_nil, or_false] at hev
    rcases hev with rfl | rfl | rfl <;> rfl

/-- C2 (witness): `init --force` in `/repo`, where the record file exists,
    makes no call into package `timecard`. -/
theorem init_existing_untouched_witness :
    demoWorld.osStat (demoWorld.pathJoin demoCLI.cwd timecardFile) = .found ∧
    ∀ ev ∈ (initFunc demoWorld demoCLI ["--force"]).trace, ev.isEngineCall = false :=
  ⟨by decide, init_existing_untouched demoWorld demoCLI ["--force"] (by decide)⟩

/-- C3 (the code at the failing input): `checkpoint lunch`, in a valid
    repository whose record file loads, only logs its arguments and exits
    with status 0; no call into package `timecard` is made, so no checkpoint
    is recorded. -/
theorem checkpoint_calls_no_engine_operation :
    main demoWorld demoCLI ["checkpoint", "lunch"] =
      ⟨[.printf "checkpoint: []string\x7b\"lunch\"\x7d\n"], 0⟩ ∧
    (main demoWorld demoCLI ["checkpoint", "lunch"]).trace.any Event.isEngineCall = false := by
  decide

/-- C6 (the code at the failing input): `init --force`, in a valid repository
    where the record file exists, logs that the timecard is already set up
    and exits with status 0; `timecard.Init` is not called. -/
theorem init_force_does_not_reinitialize :
    forceRequested ["--force"] = true ∧
    main demoWorld demoCLI ["init", "--force"] =
      ⟨[.gitNew "/repo", .osStat "/repo/.timecard",
        .printf "Timecard already setup for /repo/.timecard, use --force to re-initialize.\n"],
       0⟩ ∧
    (main demoWorld demoCLI ["init", "--force"]).trace.any Event.isEngineCall = false := by
  decide

end Main

namespace Main

variable {G T : Type}

/-- C4: for every known command, `main` runs its command function; every
    error `e` that a call into package `timecard` returned during that run
    makes `main` end with exit status 1 and, as its last action, the fatal
    message `<cmd> command failed: <e>`; and when the command function returns
    `nil`, `main` exits with status 0 and has logged no fatal message. -/
theorem engine_error_is_fatal (w : World G T) (cli : CLI) (a : String) (rest : List String)
    (hv : cli.version = false) (hh : cli.help = false)
    (hk : w.toLower a ∈ ["init", "start", "checkpoint", "end"]) :
    ∃ fn : cmdFn G T, fnMap (w.toLower a) = some fn ∧
      (∀ ev ∈ (fn w cli rest).trace, ∀ e, ev.engineError = some e →
        (main w cli (a :: rest)).exitCode = 1 ∧
        (main w cli (a :: rest)).trace =
          (fn w cli rest).trace ++
            [.fatalf (w.toLower a ++ " command failed: " ++ e ++ "\n")]) ∧
      ((fn w cli rest).result = .returned none →
        (main w cli (a :: rest)).exitCode = 0 ∧
        (main w cli (a :: rest)).trace = (fn w cli rest).trace ∧
        ∀ ev ∈ (main w cli (a :: rest)).trace, ev.isFatal = false) := by
  have hfn : ∃ fn : cmdFn G T, fnMap (w.toLower a) = some fn := by
    simp only [List.mem_cons, List.mem_singleton, List.not_mem_nil, or_false] at hk
    rcases hk with h | h | h | h <;> rw [h]
    · exact ⟨_, fnMap_init⟩
    · exact ⟨_, fnMap_start⟩
    · exact ⟨_, fnMap_checkpoint⟩
    · exact ⟨_, fnMap_end⟩
  obtain ⟨fn, hfn⟩ := hfn
  have hm : main w cli (a :: rest) = finish (w.toLower a) (fn w cli rest) := by
    rw [main_command w cli a rest hv hh, hfn]
  obtain ⟨h1, h2⟩ := fnMap_run_facts w cli (w.toLower a) rest fn hfn
  refine ⟨fn, hfn, ?_, ?_⟩
  · intro ev hev e he
    rw [hm, finish_error _ _ e (h1 ev hev e he)]
    exact ⟨rfl, rfl⟩
  · intro hr
    rw [hm, finish_nil _ _ hr]
    exact ⟨rfl, rfl, h2 ⟨none, hr⟩⟩

/-- C4 (witness): `init` in a repository without a record file, where
    `timecard.Init` fails with `disk full`: `main` exits with status 1 after
    the fatal message `init command failed: disk full`. -/
theorem engine_error_is_fatal_witness :
    asciiLower "INIT" ∈ ["init", "start", "checkpoint", "end"] ∧
    (main freshWorld demoCLI ["INIT"]).exitCode = 1 ∧
    (main freshWorld demoCLI ["INIT"]).trace =
      [.gitNew "/repo", .osStat "/repo/.timecard",
       .tcInit () "/repo/.timecard" (some "disk full"),
       .fatalf "init command failed: disk full\n"] := by
  refine ⟨by decide, ?_⟩
  obtain ⟨fn, hfn, herr, -⟩ :=
    engine_error_is_fatal freshWorld demoCLI "INIT" [] rfl rfl (by decide)
  have hfn' : fn = initFunc := by
    have h : (fnMap (freshWorld.toLower "INIT") : Option (cmdFn Unit Unit)) = some initFunc :=
      rfl
    rw [h] at hfn
    exact (Option.some.inj hfn).symm
  subst hfn'
  have h := herr (.tcInit () "/repo/.timecard" (some "disk full")) (by decide) "disk full" rfl
  exact ⟨h.1, by rw [h.2]; decide⟩

/-- C5: in a valid repository, with `p` the record path:
    * if the record file does not exist, `initFunc` calls `timecard.Init` on
      `p` and returns exactly its error (`nil` on success);
    * if `timecard.Load` fails, `startFunc` and `endFunc` return its error
      unchanged and call neither `Start` nor `End`;
    * if `timecard.Load` succeeds, `startFunc` returns exactly the result of
      `Start` and `endFunc` exactly the result of `End` on the loaded
      timecard. -/
theorem failures_are_returned (w : World G T) (cli : CLI) (args : List String) (g : G)
    (hg : w.gitNew cli.cwd = .ok g) :
    (w.osStat (w.pathJoin cli.cwd timecardFile) = .notExist →
      (initFunc w cli args).result =
        .returned (errorOf (w.tcInit g (w.pathJoin cli.cwd timecardFile))) ∧
      .tcInit g (w.pathJoin cli.cwd timecardFile)
        (errorOf (w.tcInit g (w.pathJoin cli.cwd timecardFile))) ∈ (initFunc w cli args).trace) ∧
    (∀ e, w.tcLoad g (w.pathJoin cli.cwd timecardFile) = .error e →
      startFunc w cli args =
        ⟨[.gitNew cli.cwd, .tcLoad g (w.pathJoin cli.cwd timecardFile) (some e)],
         .returned (some e)⟩ ∧
      endFunc w cli args =
        ⟨[.gitNew cli.cwd, .tcLoad g (w.pathJoin cli.cwd timecardFile) (some e)],
         .returned (some e)⟩) ∧
    (∀ tc, w.tcLoad g (w.pathJoin cli.cwd timecardFile) = .ok tc →
      startFunc w cli args =
        ⟨[.gitNew cli.cwd, .tcLoad g (w.pathJoin cli.cwd timecardFile) none,
          .tcStart tc (w.tcStart tc)], .returned (w.tcStart tc)⟩ ∧
      endFunc w cli args =
        ⟨[.gitNew cli.cwd, .tcLoad g (w.pathJoin cli.cwd timecardFile) none,
          .tcEnd tc (w.tcEnd tc)], .returned (w.tcEnd tc)⟩) := by
  refine ⟨?_, ?_, ?_⟩
  · intro hs
    rw [initFunc_absent w cli args g hg (by rw [hs]; rfl)]
    cases w.tcInit g (w.pathJoin cli.cwd timecardFile) <;> simp [errorOf]
  · intro e he
    rw [startFunc_repo w cli args g hg, endFunc_repo w cli args g hg, he]
    exact ⟨rfl, rfl⟩
  · intro tc htc
    rw [startFunc_repo w cli args g hg, endFunc_repo w cli args g hg, htc]
    exact ⟨rfl, rfl⟩

/-- C5 (witness): in a repository without a record file where `timecard.Init`
    and `timecard.Load` fail, `init`, `start` and `end` return those errors. -/
theorem failures_are_returned_witness :
    (initFunc freshWorld demoCLI []).result = .returned (some "disk full") ∧
    (startFunc freshWorld demoCLI []).result =
      .returned (some "open .timecard: no such file") ∧
    (endFunc freshWorld demoCLI []).result =
      .returned (some "open .timecard: no such file") := by
  obtain ⟨h1, h2, -⟩ := failures_are_returned freshWorld demoCLI [] () rfl
  have h3 := h2 "open .timecard: no such file" rfl
  exact ⟨(h1 (by decide)).1, by rw [h3.1], by rw [h3.2]⟩

end Main

namespace Main

variable {G T : Type}

/-! ### The record path named in a trace -/

theorem initFunc_recordPath (w : World G T) (cli : CLI) (args : List String) :
    ∀ ev ∈ (initFunc w cli args).trace, ∀ p, ev.recordPath = some p →
      p = w.pathJoin cli.cwd timecardFile := by
  intro ev hev p hp
  cases hg : w.gitNew cli.cwd with
  | error e =>
    rw [initFunc_no_repo w cli args e hg] at hev
    simp only [List.mem_cons, List.mem_singleton, List.not_mem_nil, or_false] at hev
    rcases hev with rfl | rfl <;> simp [Event.recordPath] at hp
  | ok g =>
    cases hs : (w.osStat (w.pathJoin cli.cwd timecardFile)).isNotExist with
    | false =>
      rw [initFunc_present w cli args g hg hs] at hev
      simp only [List.mem_cons, List.mem_singleton, List.not_mem_nil, or_false] at hev
      rcases hev with rfl | rfl | rfl <;> simp [Event.recordPath] at hp
      exact hp.symm
    | true =>
      rw [initFunc_absent w cli args g hg hs] at hev
      cases hi : w.tcInit g (w.pathJoin cli.cwd timecardFile) with
      | error x =>
        simp only [hi, List.mem_cons, List.mem_singleton, List.not_mem_nil, or_false] at hev
        rcases hev with rfl | rfl | rfl <;> simp [Event.recordPath] at hp <;> exact hp.symm
      | ok tc =>
        simp only [hi, List.mem_cons, List.mem_singleton, List.not_mem_nil, or_false] at hev
        rcases hev with rfl | rfl | rfl | rfl <;> simp [Event.recordPath] at hp <;>
          exact hp.symm

theorem startFunc_recordPath (w : World G T) (cli : CLI) (args : List String) :
    ∀ ev ∈ (startFunc w cli args).trace, ∀ p, ev.recordPath = some p →
      p = w.pathJoin cli.cwd timecardFile := by
  intro ev hev p hp
  cases hg : w.gitNew cli.cwd with
  | error e =>
    rw [startFunc_no_repo w cli args e hg] at hev
    simp only [List.mem_cons, List.mem_singleton, List.not_mem_nil, or_false] at hev
    rcases hev with rfl | rfl <;> simp [Event.recordPath] at hp
  | ok g =>
    rw [startFunc_repo w cli args g hg] at hev
    cases hl : w.tcLoad g (w.pathJoin cli.cwd timecardFile) with
    | error x =>
      simp only [hl, List.mem_cons, List.mem_singleton, List.not_mem_nil, or_false] at hev
      rcases hev with rfl | rfl <;> simp [Event.recordPath] at hp
      exact hp.symm
    | ok tc =>
      simp only [hl, List.mem_cons, List.mem_singleton, List.not_mem_nil, or_false] at hev
      rcases hev with rfl | rfl | rfl <;> simp [Event.recordPath] at hp
      exact hp.symm

theorem endFunc_recordPath (w : World G T) (cli : CLI) (args : List String) :
    ∀ ev ∈ (endFunc w cli args).trace, ∀ p, ev.recordPath = some p →
      p = w.pathJoin cli.cwd timecardFile := by
  intro ev hev p hp
  cases hg : w.gitNew cli.cwd with
  | error e =>
    rw [endFunc_no_repo w cli args e hg] at hev
    simp only [List.mem_cons, List.mem_singleton, List.not_mem_nil, or_false] at hev
    rcases hev with rfl | rfl <;> simp [Event.recordPath] at hp
  | ok g =>
    rw [endFunc_repo w cli args g hg] at hev
    cases hl : w.tcLoad g (w.pathJoin cli.cwd timecardFile) with
    | error x =>
      simp only [hl, List.mem_cons, List.mem_singleton, List.not_mem_nil, or_false] at hev
      rcases hev with rfl | rfl <;> simp [Event.recordPath] at hp
      exact hp.symm
    | ok tc =>
      simp only [hl, List.mem_cons, List.mem_singleton, List.not_mem_nil, or_false] at hev
      rcases hev with rfl | rfl | rfl <;> simp [Event.recordPath] at hp
      exact hp.symm

/-- The first action of `initFunc` is the repository probe. -/
theorem initFunc_head (w : World G T) (cli : CLI) (args : List String) :
    (initFunc w cli args).trace.head? = some (.gitNew cli.cwd) := by
  cases hg : w.gitNew cli.cwd with
  | error e => rw [initFunc_no_repo w cli args e hg]; rfl
  | ok g =>
    cases hs : (w.osStat (w.pathJoin cli.cwd timecardFile)).isNotExist with
    | false => rw [initFunc_present w cli args g hg hs]; rfl
    | true =>
      rw [initFunc_absent w cli args g hg hs]
      cases w.tcInit g (w.pathJoin cli.cwd timecardFile) <;> rfl

/-- The first action of `startFunc` is the repository probe. -/
theorem startFunc_head (w : World G T) (cli : CLI) (args : List String) :
    (startFunc w cli args).trace.head? = some (.gitNew cli.cwd) := by
  cases hg : w.gitNew cli.cwd with
  | error e => rw [startFunc_no_repo w cli args e hg]; rfl
  | ok g =>
    rw [startFunc_repo w cli args g hg]
    cases w.tcLoad g (w.pathJoin cli.cwd timecardFile) <;> rfl

/-- The first action of `endFunc` is the repository probe. -/
theorem endFunc_head (w : World G T) (cli : CLI) (args : List String) :
    (endFunc w cli args).trace.head? = some (.gitNew cli.cwd) := by
  cases hg : w.gitNew cli.cwd with
  | error e => rw [endFunc_no_repo w cli args e hg]; rfl
  | ok g =>
    rw [endFunc_repo w cli args g hg]
    cases w.tcLoad g (w.pathJoin cli.cwd timecardFile) <;> rfl

/-- C9: the dispatch of `main` by the version flag, the help flag and the
    arguments.
    * With the version flag, `main` only logs the version, whatever the help
      flag and the arguments are: no action of a command function occurs.
    * Otherwise, with the help flag or without arguments, `main` only logs the
      usage.
    * Otherwise `main` looks up the lower-cased first argument.  For `init`,
      `start`, `checkpoint`, `end` the run of `main` is the run of that one
      command function on the remaining arguments: its trace is the trace of
      the command function, followed by the fatal message
      `<cmd> command failed: <e>` exactly when the function returned an error
      `e`; the exit status is 0 exactly when it returned `nil`.  That run is
      never empty: it begins with the repository probe (`init`, `start`,
      `end`) or with the log line that shows the remaining arguments
      (`checkpoint`).
    * For any other name `main` only logs the fatal `Unknown command!`
      message and exits with status 1. -/
theorem main_dispatch (w : World G T) (cli : CLI) (args : List String) :
    (cli.version = true → main w cli args = ⟨[.printf (version ++ "\n")], 0⟩) ∧
    (cli.version = false → (cli.help = true ∨ args = []) →
      main w cli args = ⟨[.printf (usage ++ "\n")], 0⟩) ∧
    (cli.version = false → cli.help = false → ∀ a rest, args = a :: rest →
      (∀ (cmd : String) (fn : cmdFn G T),
        (cmd, fn) ∈ [("init", initFunc), ("start", startFunc),
          ("checkpoint", checkpointFunc), ("end", endFunc)] →
        w.toLower a = cmd →
          ((fn w cli rest).result = .fatal →
            main w cli args = ⟨(fn w cli rest).trace, 1⟩) ∧
          ((fn w cli rest).result = .returned none →
            main w cli args = ⟨(fn w cli rest).trace, 0⟩) ∧
          (∀ e, (fn w cli rest).result = .returned (some e) →
            main w cli args =
              ⟨(fn w cli rest).trace ++ [.fatalf (cmd ++ " command failed: " ++ e ++ "\n")],
               1⟩) ∧
          ((fn w cli rest).trace.head? = some (.gitNew cli.cwd) ∨
            (fn w cli rest).trace =
              [.printf ("checkpoint: " ++ w.goSyntax rest ++ "\n")])) ∧
      (w.toLower a ∉ ["init", "start", "checkpoint", "end"] →
        main w cli args = ⟨[.fatalf ("Unknown command! " ++ usage ++ "\n")], 1⟩)) := by
  refine ⟨?_, ?_, ?_⟩
  · intro hv
    simp [main, hv]
  · intro hv hh
    rcases hh with hh | hh
    · simp [main, hv, hh]
    · subst hh
      simp [main, hv]
  · intro hv hh a rest ha
    subst ha
    rw [main_command w cli a rest hv hh]
    refine ⟨?_, ?_⟩
    · intro cmd fn hmem hcmd
      have hfn : (fnMap (w.toLower a) : Option (cmdFn G T)) = some fn ∧
          ((fn w cli rest).trace.head? = some (.gitNew cli.cwd) ∨
            (fn w cli rest).trace =
              [.printf ("checkpoint: " ++ w.goSyntax rest ++ "\n")]) := by
        simp only [List.mem_cons, List.mem_singleton, List.not_mem_nil, or_false,
          Prod.mk.injEq] at hmem
        rcases hmem with ⟨h1, h2⟩ | ⟨h1, h2⟩ | ⟨h1, h2⟩ | ⟨h1, h2⟩ <;>
          rw [hcmd, h1, h2]
        · exact ⟨fnMap_init, Or.inl (initFunc_head w cli rest)⟩
        · exact ⟨fnMap_start, Or.inl (startFunc_head w cli rest)⟩
        · exact ⟨fnMap_checkpoint, Or.inr rfl⟩
        · exact ⟨fnMap_end, Or.inl (endFunc_head w cli rest)⟩
      rw [hfn.1, hcmd]
      refine ⟨?_, ?_, ?_, hfn.2⟩
      · intro hr
        simp [finish, hr]
      · intro hr
        simp [finish, hr]
      · intro e hr
        simp [finish, hr]
    · intro h
      rw [fnMap_unknown _ h]

/-- C9 (witness): the version flag wins over the help flag and the arguments;
    `START x` runs the start command, whose three actions are the whole run;
    `End` runs the end command, whose error becomes the fatal message;
    `Checkpoint a b` passes `a` and `b` on; `status` is unknown. -/
theorem main_dispatch_witness :
    main demoWorld ⟨true, true, "/repo"⟩ ["init"] = ⟨[.printf "0.0.1\n"], 0⟩ ∧
    main demoWorld demoCLI ["START", "x"] =
      ⟨[.gitNew "/repo", .tcLoad () "/repo/.timecard" none, .tcStart () none], 0⟩ ∧
    main busyWorld demoCLI ["End"] =
      ⟨[.gitNew "/repo", .tcLoad () "/repo/.timecard" none,
        .tcEnd () (some "no open session"),
        .fatalf "end command failed: no open session\n"], 1⟩ ∧
    main demoWorld demoCLI ["Checkpoint", "a", "b"] =
      ⟨[.printf "checkpoint: []string\x7b\"a\", \"b\"\x7d\n"], 0⟩ ∧
    main demoWorld demoCLI ["status"] =
      ⟨[.fatalf ("Unknown command! " ++ usage ++ "\n")], 1⟩ :=
  ⟨(main_dispatch demoWorld ⟨true, true, "/repo"⟩ ["init"]).1 rfl,
   ((((main_dispatch demoWorld demoCLI ["START", "x"]).2.2 rfl rfl "START" ["x"] rfl).1
     "start" startFunc (by simp) (by decide)).2.1 rfl).trans (by decide),
   ((((main_dispatch busyWorld demoCLI ["End"]).2.2 rfl rfl "End" [] rfl).1
     "end" endFunc (by simp) (by decide)).2.2.1 "no open session" rfl).trans (by decide),
   ((((main_dispatch demoWorld demoCLI ["Checkpoint", "a", "b"]).2.2 rfl rfl "Checkpoint"
     ["a", "b"] rfl).1 "checkpoint" checkpointFunc (by simp) (by decide)).2.1 rfl).trans
     (by decide),
   ((main_dispatch demoWorld demoCLI ["status"]).2.2 rfl rfl "status" [] rfl).2
     (by decide)⟩

/-- C10: if `git.New` fails, each of `initFunc`, `startFunc` and `endFunc`
    only probes the repository and ends the process with the fatal message
    about the missing repository: no `os.Stat` and no call into package
    `timecard` is made.  And whatever `git.New` answers, every record path
    that the three functions name is `path.Join(cwd, timecardFile)`, with
    `timecardFile` the constant `.timecard`; in a valid repository each of
    them does name it. -/
theorem no_repo_is_fatal (w : World G T) (cli : CLI) (args : List String) :
    (∀ e, w.gitNew cli.cwd = .error e →
      initFunc w cli args = ⟨[.gitNew cli.cwd, .fatalf (noRepoMsg cli.cwd)], .fatal⟩ ∧
      startFunc w cli args = ⟨[.gitNew cli.cwd, .fatalf (noRepoMsg cli.cwd)], .fatal⟩ ∧
      endFunc w cli args = ⟨[.gitNew cli.cwd, .fatalf (noRepoMsg cli.cwd)], .fatal⟩ ∧
      ∀ ev ∈ (initFunc w cli args).trace ++ (startFunc w cli args).trace ++
          (endFunc w cli args).trace, ev.examinesRecord = false) ∧
    (∀ ev ∈ (initFunc w cli args).trace ++ (startFunc w cli args).trace ++
        (endFunc w cli args).trace,
      ∀ p, ev.recordPath = some p → p = w.pathJoin cli.cwd timecardFile) ∧
    (∀ g, w.gitNew cli.cwd = .ok g →
      .osStat (w.pathJoin cli.cwd timecardFile) ∈ (initFunc w cli args).trace ∧
      (∃ err, .tcLoad g (w.pathJoin cli.cwd timecardFile) err ∈ (startFunc w cli args).trace) ∧
      (∃ err, .tcLoad g (w.pathJoin cli.cwd timecardFile) err ∈ (endFunc w cli args).trace)) ∧
    timecardFile = ".timecard" := by
  refine ⟨?_, ?_, ?_, rfl⟩
  · intro e he
    refine ⟨initFunc_no_repo w cli args e he, startFunc_no_repo w cli args e he,
      endFunc_no_repo w cli args e he, ?_⟩
    rw [initFunc_no_repo w cli args e he, startFunc_no_repo w cli args e he,
      endFunc_no_repo w cli args e he]
    intro ev hev
    simp only [List.cons_append, List.nil_append, List.mem_cons, List.not_mem_nil,
      or_false] at hev
    rcases hev with rfl | rfl | rfl | rfl | rfl | rfl <;> rfl
  · intro ev hev
    simp only [List.mem_append] at hev
    rcases hev with (hev | hev) | hev
    · exact initFunc_recordPath w cli args ev hev
    · exact startFunc_recordPath w cli args ev hev
    · exact endFunc_recordPath w cli args ev hev
  · intro g hg
    refine ⟨?_, ?_, ?_⟩
    · cases hs : (w.osStat (w.pathJoin cli.cwd timecardFile)).isNotExist with
      | false =>
        rw [initFunc_present w cli args g hg hs]
        simp
      | true =>
        rw [initFunc_absent w cli args g hg hs]
        cases w.tcInit g (w.pathJoin cli.cwd timecardFile) <;> simp
    · rw [startFunc_repo w cli args g hg]
      cases w.tcLoad g (w.pathJoin cli.cwd timecardFile) with
      | error x => exact ⟨some x, by simp⟩
      | ok tc => exact ⟨none, by simp⟩
    · rw [endFunc_repo w cli args g hg]
      cases w.tcLoad g (w.pathJoin cli.cwd timecardFile) with
      | error x => exact ⟨some x, by simp⟩
      | ok tc => exact ⟨none, by simp⟩

/-- C10 (witness): outside a git repository, `init`, `start` and `end` log
    the fatal message and touch nothing. -/
theorem no_repo_is_fatal_witness :
    initFunc noRepoWorld demoCLI [] =
      ⟨[.gitNew "/repo",
        .fatalf "Error: Could not find a valid git repository at /repo. Did you \"git init\"?\n"],
       .fatal⟩ ∧
    startFunc noRepoWorld demoCLI [] = initFunc noRepoWorld demoCLI [] ∧
    endFunc noRepoWorld demoCLI [] = initFunc noRepoWorld demoCLI [] := by
  obtain ⟨h1, h2, h3, -⟩ :=
    (no_repo_is_fatal noRepoWorld demoCLI []).1 "not a git repository" rfl
  exact ⟨by rw [h1]; decide, by rw [h2, h1], by rw [h3, h1]⟩

end Main

/-! ## The claim about the state machine -/

namespace Engine

/-- Changing the currently open session, and no other, does not raise the
    number of open sessions. -/
theorem countP_modifyOpen_le (f : Session → Session) (ss : List Session) :
    (modifyOpen f ss).countP Session.isOpen ≤ ss.countP Session.isOpen := by
  induction ss with
  | nil => simp [modifyOpen]
  | cons s rest ih =>
    unfold modifyOpen
    by_cases hs : s.isOpen = true
    · rw [if_pos hs, List.countP_cons, List.countP_cons]
      have : (if (f s).isOpen = true then 1 else 0) ≤ (if s.isOpen = true then 1 else 0) := by
        rw [if_pos hs]
        split <;> omega
      omega
    · rw [if_neg hs, List.countP_cons, List.countP_cons]
      omega

/-- Without a currently open session, no session is open. -/
theorem countP_of_currentOpen_none (ss : List Session) (h : currentOpen ss = none) :
    ss.countP Session.isOpen = 0 := by
  unfold currentOpen at h
  rw [List.find?_eq_none] at h
  rw [List.countP_eq_zero]
  exact h

theorem start_preserves (tc tc' : Timecard) (commit : Except Failure String) (now : Nat)
    (h : tc.Start commit now = .ok tc') : AtMostOneOpen tc' := by
  unfold Timecard.Start at h
  cases ho : currentOpen tc.sessions with
  | some s => simp [ho] at h
  | none =>
    cases commit with
    | error e => simp [ho] at h
    | ok c =>
      simp only [ho, Except.ok.injEq] at h
      subst h
      unfold AtMostOneOpen openCount
      simp only [List.countP_append, countP_of_currentOpen_none _ ho]
      simp [List.countP_cons]
      split <;> omega

theorem checkpoint_preserves (tc tc' : Timecard) (label : String) (now : Nat)
    (hinv : AtMostOneOpen tc) (h : tc.Checkpoint label now = .ok tc') : AtMostOneOpen tc' := by
  unfold Timecard.Checkpoint at h
  cases ho : currentOpen tc.sessions with
  | none => simp [ho] at h
  | some s =>
    simp only [ho] at h
    split_ifs at h
    simp only [Except.ok.injEq] at h
    subst h
    unfold AtMostOneOpen openCount at hinv ⊢
    exact le_trans (countP_modifyOpen_le _ tc.sessions) hinv

theorem end_preserves (tc tc' : Timecard) (commit : Except Failure String) (now : Nat)
    (hinv : AtMostOneOpen tc) (h : tc.End commit now = .ok tc') : AtMostOneOpen tc' := by
  unfold Timecard.End at h
  cases ho : currentOpen tc.sessions with
  | none => simp [ho] at h
  | some s =>
    cases commit with
    | error e => simp [ho] at h
    | ok c =>
      simp only [ho] at h
      split_ifs at h
      simp only [Except.ok.injEq] at h
      subst h
      unfold AtMostOneOpen openCount at hinv ⊢
      exact le_trans (countP_modifyOpen_le _ tc.sessions) hinv

theorem apply_preserves (tc tc' : Timecard) (call : Call)
    (hinv : AtMostOneOpen tc) (h : apply tc call = .ok tc') : AtMostOneOpen tc' := by
  cases call with
  | start commit now => exact start_preserves tc tc' commit now h
  | checkpoint label now => exact checkpoint_preserves tc tc' label now hinv h
  | stop commit now => exact end_preserves tc tc' commit now hinv h

theorem applyAll_preserves (calls : List Call) :
    ∀ (tc tc' : Timecard), AtMostOneOpen tc → applyAll tc calls = .ok tc' →
      AtMostOneOpen tc' := by
  induction calls with
  | nil =>
    intro tc tc' hinv h
    simp only [applyAll, Except.ok.injEq] at h
    exact h ▸ hinv
  | cons c cs ih =>
    intro tc tc' hinv h
    unfold applyAll at h
    cases hc : apply tc c with
    | error e => simp [hc] at h
    | ok tc1 =>
      simp only [hc] at h
      exact ih tc1 tc' (apply_preserves tc tc1 c hinv hc) h

theorem init_atMostOneOpen (recordExists force : Bool) (path : String) (tc : Timecard)
    (h : Init recordExists force path = .ok tc) : AtMostOneOpen tc := by
  unfold Init at h
  split_ifs at h
  simp only [Except.ok.injEq] at h
  subst h
  simp [AtMostOneOpen, openCount]

/-- C7: at most one session of a `Timecard` is open.  The empty timecard
    that `Init` produces has the property; a `Start`, `Checkpoint` or `End`
    call that the engine accepts on a timecard with the property gives a
    timecard with the property; and so does every sequence of accepted calls
    that begins at the timecard produced by `Init`. -/
theorem at_most_one_open_session :
    (∀ recordExists force path tc, Init recordExists force path = .ok tc →
      tc.sessions = [] ∧ AtMostOneOpen tc) ∧
    (∀ tc call tc', AtMostOneOpen tc → apply tc call = .ok tc' → AtMostOneOpen tc') ∧
    (∀ recordExists force path tc calls tc', Init recordExists force path = .ok tc →
      applyAll tc calls = .ok tc' → AtMostOneOpen tc') := by
  refine ⟨?_, ?_, ?_⟩
  · intro ex force path tc h
    refine ⟨?_, init_atMostOneOpen ex force path tc h⟩
    unfold Init at h
    split_ifs at h
    simp only [Except.ok.injEq] at h
    subst h
    rfl
  · intro tc call tc' hinv h
    exact apply_preserves tc tc' call hinv h
  · intro ex force path tc calls tc' hi h
    exact applyAll_preserves calls tc tc' (init_atMostOneOpen ex force path tc hi) h

/-- C7 (witness): the engine accepts `Start`, `Checkpoint("lunch")`, `End` on
    the timecard of `Init`; the result is one closed session with one
    checkpoint, and at most one session of it is open. -/
theorem at_most_one_open_session_witness :
    Init false false ".timecard" = .ok ⟨".timecard", []⟩ ∧
    applyAll ⟨".timecard", []⟩ lunchDay =
      .ok ⟨".timecard", [⟨"abc", 10, [⟨"lunch", 20⟩], some "def", some 30⟩]⟩ ∧
    AtMostOneOpen ⟨".timecard", [⟨"abc", 10, [⟨"lunch", 20⟩], some "def", some 30⟩]⟩ :=
  ⟨rfl, rfl,
   at_most_one_open_session.2.2 false false ".timecard" ⟨".timecard", []⟩ lunchDay
     ⟨".timecard", [⟨"abc", 10, [⟨"lunch", 20⟩], some "def", some 30⟩]⟩ rfl rfl⟩

end Engine
